import Mathlib

/-!
Shallow embedding of the TICooperator S2E plugin (TICooperator.cpp /
TICooperator.h).  The plugin hooks the engine fork-decision event
(`onStateForkDecide`), suppresses forking, filters branches through a
registry of target return addresses (`retAddr`, loaded by
`readSelectedRetAddr`), solves the alternate-branch constraint and hands
successful solutions to the test-case generator (`generateTestcase`).
`onTimer` appends statistics rows and enforces a timeout, and
`onEngineShutdown` writes the unvisited-site report and a closing summary
row.  Engine services (expression simplification, concolic evaluation, the
constraint solver, the `addConstraint` check on the clone) are external collaborators
and are modelled as parameters bundled in `Engine`.
-/

namespace TICoop

/-- Branch-condition expressions, as far as the plugin inspects them:
it only ever asks whether an expression is a `ConstantExpr` (and its truth
value) and wraps a condition in `Expr::createIsZero` (logical negation).
Everything else is opaque (`atom`). -/
inductive Expr where
  | const : Bool → Expr
  | atom : Nat → Expr
  | isZero : Expr → Expr
deriving DecidableEq

/-- Test `dyn_cast<ConstantExpr>(e) != nullptr`. -/
def Expr.isConst : Expr → Bool
  | .const _ => true
  | _ => false

/-- Value `ce->isTrue()` for a constant, junk `false` otherwise (the code
only reads it behind an `isConst` test / `check`). -/
def Expr.truth : Expr → Bool
  | .const b => b
  | _ => false

/-- One entry of `retAddr` (a `std::pair<uint64_t, unsigned int>`):
the return address of a selected cmp instruction and its cmp id. -/
structure TargetSite where
  address : Nat
  cmpId : Nat
deriving DecidableEq

/-- The predicate of the `std::find_if` lambda in `onStateForkDecide`:
`if (currentPc < e.first) return false; return ((currentPc - e.first) < 0x10);`
Addresses are `uint64_t`; the subtraction is guarded by the `<` test, so
plain `Nat` subtraction is exact here. -/
def siteMatches (currentPc : Nat) (e : TargetSite) : Bool :=
  if currentPc < e.address then false
  else decide (currentPc - e.address < 0x10)

/-- Model of `std::find_if(retAddr.begin(), retAddr.end(), lambda)`: the first
element matching the forward tolerance window, if any. -/
def lookupSite (retAddr : List TargetSite) (currentPc : Nat) : Option TargetSite :=
  retAddr.find? (siteMatches currentPc)

/-- The slice of an `S2EExecutionState` the hook reads: program counter
(`state->regs()->getPc()`), accumulated constraints (`state->constraints()`),
the concolic assignment (`state->concolics`, symbolic-object id to bytes)
and the symbolic objects (`state->symbolics`, by id). -/
structure Context where
  pc : Nat
  constraints : List Expr
  concolics : List (Nat × List Nat)
  symbolics : List Nat
deriving DecidableEq

/-- External engine/solver services used by the hook, modelled as
parameters: `state->simplifyExpr`, `state->concolics->evaluate`,
`solver->getInitialValues` (query constraints and symbolic objects to an
optional vector of concrete byte vectors), and the success of
`branchedState->addConstraint`. -/
structure Engine where
  simplifyExpr : Expr → Expr
  evalConcolic : List (Nat × List Nat) → Expr → Expr
  getInitialValues : List Expr → List Nat → Option (List (List Nat))
  addConstraintOk : List Expr → Expr → Bool

/-- Mutable plugin state: the registry `retAddr`, the visited set
`isStepped` (addresses), the three static counters, and `m_currentState`
(the tracked state, `nullptr` at construction). -/
structure CoopState where
  retAddr : List TargetSite
  isStepped : List Nat
  constraintsCount : Nat
  solvedConstraints : Nat
  unsolvedConstraints : Nat
  m_currentState : Option Context
deriving DecidableEq

/-- State after the constructor and `initialize` with registry `retAddr`:
counters zero, `isStepped` empty, `m_currentState` null. -/
def initState (retAddr : List TargetSite) : CoopState :=
  { retAddr := retAddr
    isStepped := []
    constraintsCount := 0
    solvedConstraints := 0
    unsolvedConstraints := 0
    m_currentState := none }

/-- One call to `m_TestCaseGenerator->generateTestCases` (a materialization
request), tagged by the matched site data that goes into the label. -/
structure TestcaseRequest where
  ret_addr : Nat
  cmpId : Nat
deriving DecidableEq

/-- Result of `TICooperator::generateTestcase`: the observing context as it
is when the call returns, whether `abort()` was reached, and the
materialization requests issued. -/
structure GenResult where
  ctx : Context
  aborted : Bool
  requests : List TestcaseRequest
deriving DecidableEq

/-- Model of `TICooperator::generateTestcase`: clone the state, clear the
concolics of the clone and install the solved values, add the
alternate-path constraint to the clone (`abort()` on failure), request one
test case, delete the clone.  The observing `state` itself is never
written. -/
def generateTestcase (eng : Engine) (state : Context) (condition : Expr)
    (conditionIsTrue : Bool) (symbObjects : List Nat)
    (concreteObjects : List (List Nat)) (ret_addr : Nat) (cmpId : Nat) :
    GenResult :=
  let branchedState : Context :=
    { state with concolics := List.zip symbObjects concreteObjects }
  let altConstraint := if conditionIsTrue then Expr.isZero condition else condition
  if eng.addConstraintOk branchedState.constraints altConstraint then
    let branchedState :=
      { branchedState with constraints := branchedState.constraints ++ [altConstraint] }
    -- m_TestCaseGenerator->generateTestCases(newState, idStr, TC_FILE);
    -- delete branchedState;
    { ctx := state
      aborted := false
      requests := [{ ret_addr := ret_addr, cmpId := cmpId }] }
  else
    -- abort();
    { ctx := state, aborted := true, requests := [] }

/-- Result of one `onStateForkDecide` invocation. -/
structure HookResult where
  st : CoopState
  ctx : Context
  allowForking : Bool
  aborted : Bool
  requests : List TestcaseRequest
deriving DecidableEq

/-- Step `isStepped.emplace(it->first)` guarded by the `find == end` test. -/
def markVisited (st : CoopState) (a : Nat) : CoopState :=
  if st.isStepped.contains a then st
  else { st with isStepped := a :: st.isStepped }

/-- Model of `TICooperator::onStateForkDecide` (current revision): force
`allowForking` off, adopt the tracked state if unset, simplify the
condition, return on constants, look the pc up in `retAddr` (returning on a
miss), mark the matched site stepped, evaluate the condition under the
concolic assignment (`check` aborts when not constant), build the
alternate-path constraint on a copy of the constraints, count and solve,
and on success call `generateTestcase`. -/
def onStateForkDecide (eng : Engine) (st : CoopState) (state : Context)
    (condition_ : Expr) (allowForking : Bool) : HookResult :=
  let allowForking := if allowForking then false else allowForking
  let st := if st.m_currentState.isNone then { st with m_currentState := some state } else st
  let condition := eng.simplifyExpr condition_
  if condition.isConst then
    -- If we are passed a constant, no need to do anything
    { st := st, ctx := state, allowForking := allowForking, aborted := false, requests := [] }
  else
    let currentPc := state.pc
    match lookupSite st.retAddr currentPc with
    | none =>
      -- it == retAddr.end(): this branch is not of interest
      { st := st, ctx := state, allowForking := allowForking, aborted := false, requests := [] }
    | some site =>
      let ret_addr := site.address
      let cmpId := site.cmpId
      let st := markVisited st site.address
      let evalResult := eng.evalConcolic state.concolics condition
      if evalResult.isConst then
        let conditionIsTrue := evalResult.truth
        let altConstraint :=
          if conditionIsTrue then Expr.isZero condition else condition
        let tmpConstraints := state.constraints ++ [altConstraint]
        let st := { st with constraintsCount := st.constraintsCount + 1 }
        match eng.getInitialValues tmpConstraints state.symbolics with
        | none =>
          { st := { st with unsolvedConstraints := st.unsolvedConstraints + 1 }
            ctx := state, allowForking := allowForking, aborted := false, requests := [] }
        | some concreteObjects =>
          let st := { st with solvedConstraints := st.solvedConstraints + 1 }
          let g := generateTestcase eng state condition conditionIsTrue
            state.symbolics concreteObjects ret_addr cmpId
          { st := st, ctx := g.ctx, allowForking := allowForking
            aborted := g.aborted, requests := g.requests }
      else
        -- check(ce, "Could not evaluate the expression to a constant.")
        { st := st, ctx := state, allowForking := allowForking, aborted := true, requests := [] }

/-- One fork-decision event as delivered by the engine. -/
structure HookCall where
  state : Context
  condition_ : Expr
  allowForking : Bool
deriving DecidableEq

/-- Outcome of a run: final plugin state, all materialization requests in
order, and whether the run aborted (a fatal `check`/`abort` fired, ending
the process before any later event). -/
structure RunResult where
  st : CoopState
  requests : List TestcaseRequest
  aborted : Bool
deriving DecidableEq

/-- A run: the hook invoked on each event in order; an abort stops the
run. -/
def runHooks (eng : Engine) (st : CoopState) : List HookCall → RunResult
  | [] => { st := st, requests := [], aborted := false }
  | c :: cs =>
    let r := onStateForkDecide eng st c.state c.condition_ c.allowForking
    if r.aborted then
      { st := r.st, requests := r.requests, aborted := true }
    else
      let rest := runHooks eng r.st cs
      { st := rest.st, requests := r.requests ++ rest.requests, aborted := rest.aborted }

/-- A termination request issued through
`s2e()->getExecutor()->terminateState(*m_currentState, "timeout")`.  The
`target` records the value of `m_currentState` at the call: `none` means
the call dereferences a null pointer. -/
structure TerminationRequest where
  target : Option Context
  reason : String
deriving DecidableEq

/-- Observable effect of one `TICooperator::onTimer` call. -/
structure TimerResult where
  statRow : List Nat
  flushed : Bool
  termRequests : List TerminationRequest
deriving DecidableEq

/-- Model of `TICooperator::onTimer`: append the row
`getUserTime(),solved,unsolved,total` to the stats file and flush; when
`getUserTime() >= m_timeout`, terminate the tracked state with reason
"timeout".  Time is abstracted to a `Nat` tick value. -/
def onTimer (st : CoopState) (userTime : Nat) (m_timeout : Nat) : TimerResult :=
  { statRow := [userTime, st.solvedConstraints, st.unsolvedConstraints, st.constraintsCount]
    flushed := true
    termRequests :=
      if userTime ≥ m_timeout then
        [{ target := st.m_currentState, reason := "timeout" }]
      else [] }

/-- Observable effect of `TICooperator::onEngineShutdown`. -/
structure ShutdownResult where
  reportLines : List (Nat × Nat)
  solvedBranch : Nat
  failedBranch : Nat
  timer : TimerResult
  summaryRow : List Nat
deriving DecidableEq

/-- Model of `TICooperator::onEngineShutdown`: when `failed.stats` opens
(`failedOfsOk`), walk `retAddr` in order writing a `hexAddress decimalId`
line for every site whose address is not in `isStepped` and counting
visited (`solvedBranch`) versus unvisited (`failedBranch`) sites; then run
`onTimer` once more and append the closing summary row
`getUserTime(),solvedBranch,failedBranch,retAddr.size()`. -/
def onEngineShutdown (st : CoopState) (userTime : Nat) (m_timeout : Nat)
    (failedOfsOk : Bool) : ShutdownResult :=
  let unvisited := st.retAddr.filter fun s => !(st.isStepped.contains s.address)
  let visited := st.retAddr.filter fun s => st.isStepped.contains s.address
  { reportLines :=
      if failedOfsOk then unvisited.map (fun s => (s.address, s.cmpId)) else []
    solvedBranch := if failedOfsOk then visited.length else 0
    failedBranch := if failedOfsOk then unvisited.length else 0
    timer := onTimer st userTime m_timeout
    summaryRow :=
      [userTime,
       if failedOfsOk then visited.length else 0,
       if failedOfsOk then unvisited.length else 0,
       st.retAddr.length] }

/-!
Model of `TICooperator::readSelectedRetAddr` and the `std::ifstream` it
reads `ret_addr` from.  Only the stream behaviour the function exercises is
modelled: open success, the fail and eof bits, and formatted extraction of
one unsigned number (`ifs >> std::hex >> instRetAddr` and
`>> std::dec >> cmpId`).
-/

/-- State of a `std::ifstream`: whether the open succeeded, the remaining
numeric tokens of the file, and the `failbit`/`eofbit` flags.  A failed
open sets `failbit` and leaves `eofbit` clear. -/
structure IfStream where
  openedOk : Bool
  toks : List Nat
  failbit : Bool
  eofbit : Bool
deriving DecidableEq

/-- The stream state of `std::ifstream ifs("ret_addr")` when the file is
missing or unreadable. -/
def failedOpenStream : IfStream :=
  { openedOk := false, toks := [], failbit := true, eofbit := false }

/-- Formatted extraction `s >> n` of one unsigned number.  If `failbit` or
`eofbit` is already set the sentry fails and the target variable keeps its
previous (possibly indeterminate) value `cur`; extraction at end of input
sets `failbit` and `eofbit` and (since C++11) stores 0; otherwise the next
token is consumed. -/
def readNum (s : IfStream) (cur : Nat) : IfStream × Nat :=
  if s.failbit || s.eofbit then (s, cur)
  else
    match s.toks with
    | [] => ({ s with failbit := true, eofbit := true }, 0)
    | t :: rest => ({ s with toks := rest }, t)

/-- The `while (!ifs.eof())` loop body of `readSelectedRetAddr`, iterated
with explicit fuel: read `instRetAddr` and `cmpId` (loop-external
variables, so a failed read keeps the previous values) and
`retAddr.emplace` the pair (set semantics: duplicates ignored).  `none`
means the loop was still running when the fuel ran out. -/
def readLoopAux : Nat → IfStream → Nat → Nat → List (Nat × Nat) →
    Option (List (Nat × Nat))
  | 0, _, _, _, _ => none
  | fuel + 1, s, instRetAddr, cmpId, acc =>
    if s.eofbit then some acc
    else
      let r1 := readNum s instRetAddr
      let r2 := readNum r1.1 cmpId
      let acc := if acc.contains (r1.2, r2.2) then acc else acc ++ [(r1.2, r2.2)]
      readLoopAux fuel r2.1 r1.2 r2.2 acc

/-- Model of `TICooperator::readSelectedRetAddr`: warn when the open failed (no
early return in the source!) and run the read loop on uninitialized
`instRetAddr`/`cmpId` (modelled as arbitrary garbage `g1`/`g2`), starting
from an empty registry. -/
def readSelectedRetAddr (fuel : Nat) (s : IfStream) (g1 g2 : Nat) :
    Option (List (Nat × Nat)) :=
  readLoopAux fuel s g1 g2 []


/-- Concrete engine used for evaluating the model: identity simplifier, a
concolic evaluator that always reduces to the constant true, a solver that
returns the byte 0x41 for every symbolic object, and an always-successful
constraint add. -/
def demoEngine : Engine :=
  { simplifyExpr := fun e => e
    evalConcolic := fun _ _ => Expr.const true
    getInitialValues := fun _ syms => some (syms.map fun _ => [0x41])
    addConstraintOk := fun _ _ => true }

/-- Concrete engine whose concolic evaluation never reduces to a constant
and whose solver and constraint add always fail. -/
def nonconstEngine : Engine :=
  { simplifyExpr := fun e => e
    evalConcolic := fun _ _ => Expr.atom 99
    getInitialValues := fun _ _ => none
    addConstraintOk := fun _ _ => false }

/-- Registry entry at address 0x1000 with cmp id 7. -/
def demoSite : TargetSite := { address := 0x1000, cmpId := 7 }

/-- Observing context at pc 0x1005, inside the tolerance window of
`demoSite`. -/
def demoCtx : Context :=
  { pc := 0x1005, constraints := [Expr.atom 5], concolics := [(0, [0x42])], symbolics := [0] }

/-- Observing context at pc 0x2000, matching no registry entry. -/
def offsiteCtx : Context :=
  { pc := 0x2000, constraints := [], concolics := [], symbolics := [] }

/-- Fork-decision event on `demoCtx` with a non-constant condition. -/
def demoCall : HookCall := { state := demoCtx, condition_ := Expr.atom 0, allowForking := true }


theorem gen_ctx (eng : Engine) (state : Context) (c : Expr) (b : Bool)
    (so : List Nat) (co : List (List Nat)) (ra ci : Nat) :
    (generateTestcase eng state c b so co ra ci).ctx = state := by
  unfold generateTestcase
  dsimp only
  repeat' split
  all_goals rfl

theorem gen_cases (eng : Engine) (state : Context) (c : Expr) (b : Bool)
    (so : List Nat) (co : List (List Nat)) (ra ci : Nat) :
    ((generateTestcase eng state c b so co ra ci).aborted = false ∧
      (generateTestcase eng state c b so co ra ci).requests.length = 1) ∨
    ((generateTestcase eng state c b so co ra ci).aborted = true ∧
      (generateTestcase eng state c b so co ra ci).requests = []) := by
  unfold generateTestcase
  dsimp only
  repeat' split
  all_goals simp

theorem step_ctx (eng : Engine) (st : CoopState) (state : Context)
    (c : Expr) (af : Bool) : (onStateForkDecide eng st state c af).ctx = state := by
  unfold onStateForkDecide
  dsimp only
  repeat' split
  all_goals simp [gen_ctx]

theorem markVisited_counters (st : CoopState) (a : Nat) :
    (markVisited st a).constraintsCount = st.constraintsCount ∧
    (markVisited st a).solvedConstraints = st.solvedConstraints ∧
    (markVisited st a).unsolvedConstraints = st.unsolvedConstraints ∧
    (markVisited st a).m_currentState = st.m_currentState ∧
    (markVisited st a).retAddr = st.retAddr := by
  unfold markVisited
  split <;> simp

theorem step_counter_cases (eng : Engine) (st : CoopState) (state : Context)
    (c : Expr) (af : Bool) :
    ((onStateForkDecide eng st state c af).st.constraintsCount = st.constraintsCount ∧
     (onStateForkDecide eng st state c af).st.solvedConstraints = st.solvedConstraints ∧
     (onStateForkDecide eng st state c af).st.unsolvedConstraints = st.unsolvedConstraints ∧
     (onStateForkDecide eng st state c af).requests = []) ∨
    ((onStateForkDecide eng st state c af).st.constraintsCount = st.constraintsCount + 1 ∧
     (onStateForkDecide eng st state c af).st.solvedConstraints = st.solvedConstraints ∧
     (onStateForkDecide eng st state c af).st.unsolvedConstraints = st.unsolvedConstraints + 1 ∧
     (onStateForkDecide eng st state c af).requests = []) ∨
    ((onStateForkDecide eng st state c af).st.constraintsCount = st.constraintsCount + 1 ∧
     (onStateForkDecide eng st state c af).st.solvedConstraints = st.solvedConstraints + 1 ∧
     (onStateForkDecide eng st state c af).st.unsolvedConstraints = st.unsolvedConstraints ∧
     ((onStateForkDecide eng st state c af).aborted = false →
       (onStateForkDecide eng st state c af).requests.length = 1)) := by
  unfold onStateForkDecide
  dsimp only
  repeat' split
  all_goals simp [markVisited_counters]
  all_goals exact fun h => ((gen_cases _ _ _ _ _ _ _ _).resolve_right (by simp [h])).2

theorem step_tracked (eng : Engine) (st : CoopState) (state : Context)
    (c : Expr) (af : Bool) :
    (onStateForkDecide eng st state c af).st.m_currentState
      = if st.m_currentState.isNone then some state else st.m_currentState := by
  unfold onStateForkDecide
  dsimp only
  repeat' split
  all_goals simp_all [markVisited_counters]

theorem step_retAddr (eng : Engine) (st : CoopState) (state : Context)
    (c : Expr) (af : Bool) :
    (onStateForkDecide eng st state c af).st.retAddr = st.retAddr := by
  unfold onStateForkDecide
  dsimp only
  repeat' split
  all_goals simp_all [markVisited_counters]

theorem markVisited_mem (st : CoopState) (a b : Nat) :
    b ∈ (markVisited st a).isStepped ↔ b ∈ st.isStepped ∨ b = a := by
  unfold markVisited
  split <;> simp_all
  exact Or.comm

theorem markVisited_congr (s t : CoopState) (a : Nat)
    (h : s.isStepped = t.isStepped) :
    (markVisited s a).isStepped = (markVisited t a).isStepped := by
  unfold markVisited
  rw [h]
  split <;> simp [h]

theorem step_isStepped_cases (eng : Engine) (st : CoopState) (state : Context)
    (c : Expr) (af : Bool) :
    (onStateForkDecide eng st state c af).st.isStepped = st.isStepped ∨
    ((eng.simplifyExpr c).isConst = false ∧
      ∃ s, lookupSite st.retAddr state.pc = some s ∧
        (onStateForkDecide eng st state c af).st.isStepped = (markVisited st s.address).isStepped) := by
  unfold onStateForkDecide
  dsimp only
  repeat' split
  all_goals simp_all [markVisited_counters]
  all_goals exact Or.inr (markVisited_congr _ _ _ rfl)

theorem markVisited_idem (st : CoopState) (a : Nat) (h : a ∈ st.isStepped) :
    markVisited st a = st := by
  unfold markVisited
  simp [h]

theorem step_isStepped_mark (eng : Engine) (st : CoopState) (state : Context)
    (c : Expr) (af : Bool) (s : TargetSite)
    (h1 : (eng.simplifyExpr c).isConst = false)
    (h2 : lookupSite st.retAddr state.pc = some s) :
    s.address ∈ (onStateForkDecide eng st state c af).st.isStepped := by
  unfold onStateForkDecide
  dsimp only
  repeat' split
  all_goals simp_all [markVisited_mem]

theorem step_isStepped_idem (eng : Engine) (st : CoopState) (state : Context)
    (c : Expr) (af : Bool) (s : TargetSite)
    (h2 : lookupSite st.retAddr state.pc = some s)
    (h3 : s.address ∈ st.isStepped) :
    (onStateForkDecide eng st state c af).st.isStepped = st.isStepped := by
  unfold onStateForkDecide
  dsimp only
  repeat' split
  all_goals simp_all [markVisited_counters]
  all_goals rw [markVisited_idem]
  all_goals simp_all

theorem run_counters (eng : Engine) (calls : List HookCall) (st : CoopState) :
    (st.solvedConstraints + st.unsolvedConstraints = st.constraintsCount →
      (runHooks eng st calls).st.solvedConstraints
        + (runHooks eng st calls).st.unsolvedConstraints
        = (runHooks eng st calls).st.constraintsCount) ∧
    st.solvedConstraints ≤ (runHooks eng st calls).st.solvedConstraints ∧
    st.unsolvedConstraints ≤ (runHooks eng st calls).st.unsolvedConstraints ∧
    st.constraintsCount ≤ (runHooks eng st calls).st.constraintsCount := by
  induction calls generalizing st with
  | nil => simp [runHooks]
  | cons c cs ih =>
    simp only [runHooks]
    split
    · dsimp only
      rcases step_counter_cases eng st c.state c.condition_ c.allowForking with
        ⟨h1, h2, h3, _⟩ | ⟨h1, h2, h3, _⟩ | ⟨h1, h2, h3, _⟩ <;>
        exact ⟨fun hinv => by omega, by omega, by omega, by omega⟩
    · dsimp only
      rcases ih (onStateForkDecide eng st c.state c.condition_ c.allowForking).st with
        ⟨g1, g2, g3, g4⟩
      rcases step_counter_cases eng st c.state c.condition_ c.allowForking with
        ⟨h1, h2, h3, _⟩ | ⟨h1, h2, h3, _⟩ | ⟨h1, h2, h3, _⟩ <;>
        exact ⟨fun hinv => g1 (by omega), by omega, by omega, by omega⟩

theorem step_solved_requests (eng : Engine) (st : CoopState) (state : Context)
    (c : Expr) (af : Bool)
    (h : (onStateForkDecide eng st state c af).aborted = false) :
    st.solvedConstraints + (onStateForkDecide eng st state c af).requests.length
      = (onStateForkDecide eng st state c af).st.solvedConstraints := by
  rcases step_counter_cases eng st state c af with
    ⟨_, h2, _, h4⟩ | ⟨_, h2, _, h4⟩ | ⟨_, h2, _, h4⟩ <;> simp_all

theorem run_solved_requests (eng : Engine) (calls : List HookCall) (st : CoopState)
    (h : (runHooks eng st calls).aborted = false) :
    st.solvedConstraints + (runHooks eng st calls).requests.length
      = (runHooks eng st calls).st.solvedConstraints := by
  induction calls generalizing st with
  | nil => simp [runHooks]
  | cons c cs ih =>
    simp only [runHooks] at h ⊢
    by_cases hab : (onStateForkDecide eng st c.state c.condition_ c.allowForking).aborted = true
    · rw [if_pos hab] at h
      exact Bool.noConfusion h
    · rw [if_neg hab] at h ⊢
      simp only [Bool.not_eq_true] at hab
      have hstep := step_solved_requests eng st c.state c.condition_ c.allowForking hab
      have hrest := ih (onStateForkDecide eng st c.state c.condition_ c.allowForking).st h
      show st.solvedConstraints
          + ((onStateForkDecide eng st c.state c.condition_ c.allowForking).requests
            ++ (runHooks eng (onStateForkDecide eng st c.state c.condition_ c.allowForking).st cs).requests).length
          = (runHooks eng (onStateForkDecide eng st c.state c.condition_ c.allowForking).st cs).st.solvedConstraints
      rw [List.length_append]
      omega

theorem step_isStepped_mono (eng : Engine) (st : CoopState) (state : Context)
    (c : Expr) (af : Bool) (a : Nat) (h : a ∈ st.isStepped) :
    a ∈ (onStateForkDecide eng st state c af).st.isStepped := by
  rcases step_isStepped_cases eng st state c af with h1 | ⟨_, s, _, h1⟩ <;>
    rw [h1] <;> simp [markVisited_mem, h]

theorem run_isStepped_mono (eng : Engine) (calls : List HookCall) (st : CoopState)
    (a : Nat) (h : a ∈ st.isStepped) :
    a ∈ (runHooks eng st calls).st.isStepped := by
  induction calls generalizing st with
  | nil => simpa [runHooks] using h
  | cons c cs ih =>
    simp only [runHooks]
    split
    · exact step_isStepped_mono eng st c.state c.condition_ c.allowForking a h
    · exact ih _ (step_isStepped_mono eng st c.state c.condition_ c.allowForking a h)

theorem step_tracked_some (eng : Engine) (st : CoopState) (state : Context)
    (c : Expr) (af : Bool) (x : Context) (h : st.m_currentState = some x) :
    (onStateForkDecide eng st state c af).st.m_currentState = some x := by
  rw [step_tracked]
  simp [h]

theorem run_tracked_some (eng : Engine) (calls : List HookCall) (st : CoopState)
    (x : Context) (h : st.m_currentState = some x) :
    (runHooks eng st calls).st.m_currentState = some x := by
  induction calls generalizing st with
  | nil => simpa [runHooks] using h
  | cons c cs ih =>
    simp only [runHooks]
    split
    · exact step_tracked_some eng st c.state c.condition_ c.allowForking x h
    · exact ih _ (step_tracked_some eng st c.state c.condition_ c.allowForking x h)

theorem run_tracked_first (eng : Engine) (c : HookCall) (cs : List HookCall)
    (st : CoopState) (h : st.m_currentState = none) :
    (runHooks eng st (c :: cs)).st.m_currentState = some c.state := by
  have hstep : (onStateForkDecide eng st c.state c.condition_ c.allowForking).st.m_currentState
      = some c.state := by
    rw [step_tracked]; simp [h]
  simp only [runHooks]
  split
  · exact hstep
  · exact run_tracked_some eng cs _ c.state hstep

theorem length_filter_split (l : List TargetSite) (p : TargetSite → Bool) :
    (l.filter p).length + (l.filter (fun a => !(p a))).length = l.length := by
  induction l with
  | nil => rfl
  | cons x xs ih => by_cases h : p x <;> simp [List.filter, h] <;> omega

theorem readNum_failed (s : IfStream) (cur : Nat) (hf : s.failbit = true) :
    readNum s cur = (s, cur) := by
  unfold readNum
  simp [hf]

theorem readLoopAux_failed (fuel : Nat) :
    ∀ (s : IfStream) (a b : Nat) (acc : List (Nat × Nat)),
      s.failbit = true → s.eofbit = false →
      readLoopAux fuel s a b acc = none := by
  induction fuel with
  | zero => intros; rfl
  | succ n ih =>
    intro s a b acc hf he
    unfold readLoopAux
    simp only [he, readNum_failed _ _ hf, Bool.false_eq_true, if_false]
    exact ih s a b _ hf he

/-- C1: for every observed program counter pc and every registered site
with address A, the site lookup in the branch hook matches the site iff
0 <= pc - A < 0x10 over the integers; in particular a pc below A never
matches, and a pc with pc - A >= 0x10 never matches. -/
theorem claim1_lookup_forward_tolerance (retAddr : List TargetSite) (pc : Nat) :
    (∀ s : TargetSite, siteMatches pc s = true ↔
        (0 ≤ (pc : Int) - (s.address : Int) ∧ (pc : Int) - (s.address : Int) < 0x10)) ∧
    ((lookupSite retAddr pc).isSome ↔
        ∃ s ∈ retAddr, 0 ≤ (pc : Int) - (s.address : Int) ∧ (pc : Int) - (s.address : Int) < 0x10) := by
  have hm : ∀ s : TargetSite, siteMatches pc s = true ↔
      (0 ≤ (pc : Int) - (s.address : Int) ∧ (pc : Int) - (s.address : Int) < 0x10) := by
    intro s
    unfold siteMatches
    split <;> simp <;> omega
  refine ⟨hm, ?_⟩
  unfold lookupSite
  rw [List.find?_isSome]
  constructor
  · rintro ⟨s, hs, hp⟩; exact ⟨s, hs, (hm s).mp hp⟩
  · rintro ⟨s, hs, hp⟩; exact ⟨s, hs, (hm s).mpr hp⟩

/-- C2: after every sequence of branch-hook invocations (so at every
observation point of the telemetry and shutdown paths),
solvedConstraints + unsolvedConstraints = constraintsCount, and none of the
three counters ever decreases over a run. -/
theorem claim2_counters_invariant (eng : Engine) (st : CoopState) (calls : List HookCall)
    (h : st.solvedConstraints + st.unsolvedConstraints = st.constraintsCount) :
    (runHooks eng st calls).st.solvedConstraints
        + (runHooks eng st calls).st.unsolvedConstraints
        = (runHooks eng st calls).st.constraintsCount ∧
    st.solvedConstraints ≤ (runHooks eng st calls).st.solvedConstraints ∧
    st.unsolvedConstraints ≤ (runHooks eng st calls).st.unsolvedConstraints ∧
    st.constraintsCount ≤ (runHooks eng st calls).st.constraintsCount := by
  rcases run_counters eng calls st with ⟨g1, g2, g3, g4⟩
  exact ⟨g1 h, g2, g3, g4⟩

/-- Witness for C2 at a concrete two-event run. -/
theorem claim2_counters_invariant_witness :
    (runHooks demoEngine (initState [demoSite]) [demoCall, demoCall]).st.solvedConstraints
        + (runHooks demoEngine (initState [demoSite]) [demoCall, demoCall]).st.unsolvedConstraints
        = (runHooks demoEngine (initState [demoSite]) [demoCall, demoCall]).st.constraintsCount ∧
    (initState [demoSite]).solvedConstraints
        ≤ (runHooks demoEngine (initState [demoSite]) [demoCall, demoCall]).st.solvedConstraints ∧
    (initState [demoSite]).unsolvedConstraints
        ≤ (runHooks demoEngine (initState [demoSite]) [demoCall, demoCall]).st.unsolvedConstraints ∧
    (initState [demoSite]).constraintsCount
        ≤ (runHooks demoEngine (initState [demoSite]) [demoCall, demoCall]).st.constraintsCount :=
  claim2_counters_invariant demoEngine (initState [demoSite]) [demoCall, demoCall] (by decide)

/-- C3: over any run that does not hit a fatal abort, the number of
materialization requests issued (calls to the external test-case
generator) equals the final value of the solved counter: one request per
successful solver query, none on failed or skipped ones. -/
theorem claim3_materializations_eq_solved (eng : Engine) (retAddr : List TargetSite)
    (calls : List HookCall)
    (h : (runHooks eng (initState retAddr) calls).aborted = false) :
    (runHooks eng (initState retAddr) calls).requests.length
      = (runHooks eng (initState retAddr) calls).st.solvedConstraints := by
  have hr := run_solved_requests eng calls (initState retAddr) h
  simpa [initState] using hr

/-- Witness for C3 at a concrete two-event run with two successful
solves. -/
theorem claim3_materializations_eq_solved_witness :
    (runHooks demoEngine (initState [demoSite]) [demoCall, demoCall]).aborted = false ∧
    (runHooks demoEngine (initState [demoSite]) [demoCall, demoCall]).requests.length
      = (runHooks demoEngine (initState [demoSite]) [demoCall, demoCall]).st.solvedConstraints :=
  ⟨by decide, claim3_materializations_eq_solved demoEngine [demoSite] [demoCall, demoCall] (by decide)⟩

/-- C4: the visited set starts empty, membership is monotone over a run
(never reverts), an address enters it only through a branch observation
with a non-constant simplified condition whose pc matches that site in the
registry lookup, every such matching observation has the matched address in
the visited set afterwards, and marking an already-visited site leaves the
visited set unchanged (idempotent). -/
theorem claim4_visited_monotone (eng : Engine) (st : CoopState) (state : Context)
    (cond : Expr) (af : Bool) (calls : List HookCall) :
    (∀ (l : List TargetSite) (a : Nat), a ∈ (initState l).isStepped → False) ∧
    (∀ a, a ∈ st.isStepped → a ∈ (runHooks eng st calls).st.isStepped) ∧
    (∀ a, a ∈ (onStateForkDecide eng st state cond af).st.isStepped →
        a ∈ st.isStepped ∨
        ((eng.simplifyExpr cond).isConst = false ∧
          ∃ s, lookupSite st.retAddr state.pc = some s ∧ s.address = a)) ∧
    (∀ s : TargetSite, (eng.simplifyExpr cond).isConst = false →
        lookupSite st.retAddr state.pc = some s →
        s.address ∈ (onStateForkDecide eng st state cond af).st.isStepped) ∧
    (∀ s : TargetSite, lookupSite st.retAddr state.pc = some s →
        s.address ∈ st.isStepped →
        (onStateForkDecide eng st state cond af).st.isStepped = st.isStepped) := by
  refine ⟨?_, ?_, ?_, ?_, ?_⟩
  · intro l a ha
    simp [initState] at ha
  · intro a ha
    exact run_isStepped_mono eng calls st a ha
  · intro a ha
    rcases step_isStepped_cases eng st state cond af with h1 | ⟨hnc, s, hl, h1⟩
    · rw [h1] at ha; exact Or.inl ha
    · rw [h1] at ha
      rcases (markVisited_mem st s.address a).mp ha with hmem | heq
      · exact Or.inl hmem
      · exact Or.inr ⟨hnc, s, hl, heq.symm⟩
  · intro s hnc hl
    exact step_isStepped_mark eng st state cond af s hnc hl
  · intro s hl hmem
    exact step_isStepped_idem eng st state cond af s hl hmem

/-- Witness for C4: the matching demo observation marks address 0x1000
visited. -/
theorem claim4_visited_monotone_witness :
    demoSite.address ∈
      (onStateForkDecide demoEngine (initState [demoSite]) demoCtx (Expr.atom 0) true).st.isStepped :=
  (claim4_visited_monotone demoEngine (initState [demoSite]) demoCtx (Expr.atom 0) true
      []).2.2.2.1 demoSite (by decide) (by decide)

/-- C5 counterexample: a non-constant condition observed at a pc with no
registry match, whose concolic evaluation does not reduce to a constant,
does NOT abort the run: the hook returns normally, so the evaluation is not
performed before the registry lookup as the claim states. -/
theorem claim5_counterexample :
    (nonconstEngine.simplifyExpr (Expr.atom 0)).isConst = false ∧
    lookupSite (initState [demoSite]).retAddr offsiteCtx.pc = none ∧
    (nonconstEngine.evalConcolic offsiteCtx.concolics
        (nonconstEngine.simplifyExpr (Expr.atom 0))).isConst = false ∧
    (onStateForkDecide nonconstEngine (initState [demoSite]) offsiteCtx
        (Expr.atom 0) true).aborted = false := by
  decide

/-- C5 amended: the registry lookup precedes the concrete evaluation.
When the lookup misses, the hook returns without evaluating the condition
(its result does not depend on the evaluation services at all) and never
aborts; when the lookup matches, failure of the evaluation to reduce to a
constant aborts the run. -/
theorem claim5_eval_after_lookup (eng eng2 : Engine) (st : CoopState) (state : Context)
    (cond : Expr) (af : Bool)
    (hs : eng2.simplifyExpr = eng.simplifyExpr)
    (hnc : (eng.simplifyExpr cond).isConst = false) :
    (lookupSite st.retAddr state.pc = none →
        onStateForkDecide eng st state cond af = onStateForkDecide eng2 st state cond af ∧
        (onStateForkDecide eng st state cond af).aborted = false) ∧
    (∀ s : TargetSite, lookupSite st.retAddr state.pc = some s →
        (eng.evalConcolic state.concolics (eng.simplifyExpr cond)).isConst = false →
        (onStateForkDecide eng st state cond af).aborted = true) := by
  constructor
  · intro hl
    unfold onStateForkDecide
    rw [hs]
    simp only [hnc]
    constructor
    · repeat' split
      all_goals simp_all
    · repeat' split
      all_goals simp_all
  · intro s hl he
    unfold onStateForkDecide
    dsimp only
    repeat' split
    all_goals simp_all

/-- Witness for C5 amended: at a matching pc a non-reducing evaluation
aborts. -/
theorem claim5_eval_after_lookup_witness :
    (onStateForkDecide nonconstEngine (initState [demoSite]) demoCtx
        (Expr.atom 1) true).aborted = true :=
  (claim5_eval_after_lookup nonconstEngine demoEngine (initState [demoSite]) demoCtx
      (Expr.atom 1) true (by rfl) (by decide)).2 demoSite (by decide) (by decide)

/-- C6: at the failing input (missing/unreadable ret_addr source, failbit
set, eofbit clear) the read loop of readSelectedRetAddr never reaches its
exit condition for any iteration bound: loading does not terminate
normally with an empty registry as the claim states, because the source
code lacks an early return after the warning and eof never becomes true on
a failed stream. -/
theorem claim6_unreadable_source_loops (fuel g1 g2 : Nat) :
    readSelectedRetAddr fuel failedOpenStream g1 g2 = none :=
  readLoopAux_failed fuel failedOpenStream g1 g2 [] rfl rfl

/-- C7: the branch hook never mutates the live observing execution
context: when the hook returns, the context (in particular its constraint
set and its concrete assignment) is exactly what it was on entry; the
alternate-path constraint only ever lands on the copied constraint set and
on the ephemeral clone. -/
theorem claim7_live_context_not_mutated (eng : Engine) (st : CoopState) (state : Context)
    (cond : Expr) (af : Bool) :
    (onStateForkDecide eng st state cond af).ctx = state ∧
    (onStateForkDecide eng st state cond af).ctx.constraints = state.constraints ∧
    (onStateForkDecide eng st state cond af).ctx.concolics = state.concolics := by
  have h := step_ctx eng st state cond af
  exact ⟨h, by rw [h], by rw [h]⟩

/-- C8: on every timer tick the statistics row is composed, appended and
flushed; a tick with elapsed user time below the timeout budget issues no
termination request, and a tick at or above the budget issues exactly one
termination request with reason timeout against the tracked state. -/
theorem claim8_timer_tick (st : CoopState) (t budget : Nat) :
    (onTimer st t budget).statRow
        = [t, st.solvedConstraints, st.unsolvedConstraints, st.constraintsCount] ∧
    (onTimer st t budget).flushed = true ∧
    (t < budget → (onTimer st t budget).termRequests = []) ∧
    (budget ≤ t → (onTimer st t budget).termRequests
        = [{ target := st.m_currentState, reason := "timeout" }]) := by
  unfold onTimer
  refine ⟨rfl, rfl, fun h => ?_, fun h => ?_⟩
  · simp only [ge_iff_le]
    rw [if_neg (by omega)]
  · simp only [ge_iff_le]
    rw [if_pos h]

/-- Witness for C8 at ticks below and above a budget of 3. -/
theorem claim8_timer_tick_witness :
    (onTimer (initState []) 2 3).termRequests = [] ∧
    (onTimer (initState []) 5 3).termRequests = [{ target := none, reason := "timeout" }] :=
  ⟨(claim8_timer_tick (initState []) 2 3).2.2.1 (by decide),
   (claim8_timer_tick (initState []) 5 3).2.2.2 (by decide)⟩

/-- C9: on engine shutdown with a registry of N sites of which k are
visited, the report lists exactly the N - k unvisited sites (address and
correlation id each, in registry order) and the closing summary row is
the user time, visitedCount = k, unvisitedCount = N - k and
totalSites = N. -/
theorem claim9_shutdown_report (st : CoopState) (t budget : Nat) :
    (onEngineShutdown st t budget true).reportLines
        = (st.retAddr.filter (fun s => !(st.isStepped.contains s.address))).map
            (fun s => (s.address, s.cmpId)) ∧
    (onEngineShutdown st t budget true).solvedBranch
        = (st.retAddr.filter (fun s => st.isStepped.contains s.address)).length ∧
    (onEngineShutdown st t budget true).reportLines.length
        = st.retAddr.length - (onEngineShutdown st t budget true).solvedBranch ∧
    (onEngineShutdown st t budget true).failedBranch
        = st.retAddr.length - (onEngineShutdown st t budget true).solvedBranch ∧
    (onEngineShutdown st t budget true).summaryRow
        = [t, (onEngineShutdown st t budget true).solvedBranch,
           st.retAddr.length - (onEngineShutdown st t budget true).solvedBranch,
           st.retAddr.length] := by
  have hsplit : (st.retAddr.filter (fun s => st.isStepped.contains s.address)).length
      + (st.retAddr.filter (fun s => !(st.isStepped.contains s.address))).length
      = st.retAddr.length :=
    length_filter_split st.retAddr (fun s => st.isStepped.contains s.address)
  have hunv : (st.retAddr.filter (fun s => !(st.isStepped.contains s.address))).length
      = st.retAddr.length
        - (st.retAddr.filter (fun s => st.isStepped.contains s.address)).length := by
    omega
  unfold onEngineShutdown
  dsimp only
  simp only [if_true]
  refine ⟨True.intro, True.intro, ?_, ?_, ?_⟩
  · rw [List.length_map, hunv]
  · exact hunv
  · rw [hunv]

/-- C10: the timeout branch of the timer handler dereferences the
tracked-state reference without a null check. After at least one
branch-hook invocation the reference holds the first observed context
(set once, never reassigned), so the termination request targets it
safely; on a tick reaching the timeout with no prior branch observation
the branch is reached with the reference still null. -/
theorem claim10_tracked_state_deref (eng : Engine) (st0 : CoopState)
    (h0 : st0.m_currentState = none) (c : HookCall) (cs : List HookCall)
    (t budget : Nat) (ht : budget ≤ t) :
    (runHooks eng st0 (c :: cs)).st.m_currentState = some c.state ∧
    (onTimer (runHooks eng st0 (c :: cs)).st t budget).termRequests
        = [{ target := some c.state, reason := "timeout" }] ∧
    (onTimer st0 t budget).termRequests = [{ target := none, reason := "timeout" }] := by
  have h1 := run_tracked_first eng c cs st0 h0
  refine ⟨h1, ?_, ?_⟩
  · unfold onTimer
    dsimp only
    rw [if_pos ht, h1]
  · unfold onTimer
    dsimp only
    rw [if_pos ht, h0]

/-- Witness for C10 with one prior observation (and with none). -/
theorem claim10_tracked_state_deref_witness :
    (runHooks demoEngine (initState [demoSite]) [demoCall]).st.m_currentState
        = some demoCall.state ∧
    (onTimer (runHooks demoEngine (initState [demoSite]) [demoCall]).st 5 3).termRequests
        = [{ target := some demoCall.state, reason := "timeout" }] ∧
    (onTimer (initState [demoSite]) 5 3).termRequests
        = [{ target := none, reason := "timeout" }] :=
  claim10_tracked_state_deref demoEngine (initState [demoSite]) rfl demoCall [] 5 3 (by decide)

end TICoop
